import Mathlib

/-!
Verification of the delayed-event scheduling engine of the `aispy` load
generator (`examples/dtc/loadgen/main.py`).

Modelling conventions:
* wall-clock instants and unit random draws are rationals (Python floats
  are modelled by exact arithmetic);
* `random.random()` draws are explicit inputs `r` with `0 ≤ r < 1`;
* `random.randint(lo, hi)` is modelled as `lo + ⌊r * (hi - lo + 1)⌋`
  for a unit draw `r` (uniform over the inclusive range);
* the `queue.PriorityQueue` is modelled as a list; `put` appends, `get`
  removes a first element that is minimal for `ConversionEvent.__lt__`;
* database and broker effects are recorded as values in the result.
-/

/-- Mirrors the Python dataclass `Lead`: email, utm fields, and an
optional identifier that is only set once the database insert returns. -/
structure Lead where
  email : String
  utm_medium : String
  utm_source : String
  id : Option Int
deriving DecidableEq, Repr

/-- Mirrors the Python dataclass `ConversionEvent`: a fire timestamp,
the lead snapshot, and a conversion amount in cents. -/
structure ConversionEvent where
  converted_at : Rat
  lead : Lead
  conversion_amount : Int
deriving DecidableEq, Repr

/-- Mirrors `ConversionEvent.__lt__`: compares only the fire timestamps. -/
def ConversionEvent.lt (a b : ConversionEvent) : Bool :=
  decide (a.converted_at < b.converted_at)

/-- Models `PriorityQueue.put`: adds an event to the pending collection. -/
def qput (q : List ConversionEvent) (e : ConversionEvent) : List ConversionEvent :=
  q ++ [e]

/-- Models `PriorityQueue.get`: removes and returns a pending event that is
minimal for `ConversionEvent.lt` (the first such element), together with
the remaining queue; `none` when the queue is empty (the Python call
blocks instead). -/
def qget : List ConversionEvent → Option (ConversionEvent × List ConversionEvent)
  | [] => none
  | e :: rest =>
    match qget rest with
    | none => some (e, [])
    | some (m, rest2) =>
      if ConversionEvent.lt m e then some (m, e :: rest2) else some (e, rest)

/-- The polling granularity `PERIOD = 0.05` seconds from `convert`. -/
def PERIOD : Rat := 1 / 20

/-- One action of the scheduler loop body: either the event was put back
and the loop sleeps, or `log_conversion(conn, lead, amount)` is called. -/
inductive ConvertAction where
  | requeueAndSleep (sleep : Rat)
  | finalize (leadId : Option Int) (amount : Int)
deriving DecidableEq, Repr

/-- One iteration of the `while True` loop in `convert`, at wall-clock
time `now` (the value of `time.time()` read at the readiness check).
Returns the queue after the iteration and the action taken; `none` when
the queue is empty and `get` blocks. -/
def convertIter (q : List ConversionEvent) (now : Rat) :
    Option (List ConversionEvent × ConvertAction) :=
  match qget q with
  | none => none
  | some (e, rest) =>
    let time_to_wait := e.converted_at - now
    if time_to_wait > PERIOD then
      some (qput rest e, ConvertAction.requeueAndSleep PERIOD)
    else
      some (rest, ConvertAction.finalize e.lead.id e.conversion_amount)

/-- Models `random.randint(lo, hi)` driven by a unit draw `r ∈ [0,1)`:
uniform over the inclusive integer range `[lo, hi]`. -/
def pyRandint (lo hi : Int) (r : Rat) : Int :=
  lo + Int.floor (r * ((hi : Rat) - (lo : Rat) + 1))

/-- The experiment-bucket rule from `create_lead`:
`"control" if lead.id % 10 <= 1 else "experiment"`. -/
def experimentBucket (i : Int) : String :=
  if i % 10 ≤ 1 then "control" else "experiment"

/-- The random draws and the database reply consumed by one
`create_lead` call, made explicit. `lead0` is the `rand_lead()` result
(its `id` field is `none`); `insertResult` is the `RETURNING id` row. -/
structure LeadGenInput where
  lead0 : Lead
  insertResult : Option Int
  score : Rat
  couponRand : Rat
  flip1 : Rat
  flip2 : Rat
  delayRand : Rat
  amountRand : Rat
deriving DecidableEq, Repr

/-- The contract of the random module: every unit draw lies in `[0,1)`. -/
def LeadGenInput.Valid (inp : LeadGenInput) : Prop :=
  0 ≤ inp.score ∧ inp.score < 1 ∧
  0 ≤ inp.couponRand ∧ inp.couponRand < 1 ∧
  0 ≤ inp.flip1 ∧ inp.flip1 < 1 ∧
  0 ≤ inp.flip2 ∧ inp.flip2 < 1 ∧
  0 ≤ inp.delayRand ∧ inp.delayRand < 1 ∧
  0 ≤ inp.amountRand ∧ inp.amountRand < 1

instance (inp : LeadGenInput) : Decidable inp.Valid := by
  unfold LeadGenInput.Valid; infer_instance

/-- The prediction label `int(score > threshold)` with threshold 0.5. -/
def leadLabel (score : Rat) : Int :=
  if score > 1 / 2 then 1 else 0

/-- The coupon condition `not label and experiment_bucket != "control"`. -/
def sentCoupon (score : Rat) (i : Int) : Prop :=
  leadLabel score = 0 ∧ experimentBucket i ≠ "control"

instance (score : Rat) (i : Int) : Decidable (sentCoupon score i) := by
  unfold sentCoupon
  infer_instance

/-- The conversion decision: `did_convert = random() < score`, and when a
coupon was sent and the first flip failed, a second flip
`did_convert = random() < score`. -/
def didConvert (inp : LeadGenInput) (i : Int) : Prop :=
  if sentCoupon inp.score i ∧ ¬ (inp.flip1 < inp.score) then
    inp.flip2 < inp.score
  else inp.flip1 < inp.score

instance (inp : LeadGenInput) (i : Int) : Decidable (didConvert inp i) := by
  unfold didConvert
  infer_instance

/-- The event enqueued on conversion: fire timestamp
`time.time() + random() * 30`, the persisted lead, and amount
`randint(1000, 25000)`. -/
def convEvent (now : Rat) (inp : LeadGenInput) (i : Int) : ConversionEvent :=
  { converted_at := now + inp.delayRand * 30,
    lead := { inp.lead0 with id := some i },
    conversion_amount := pyRandint 1000 25000 inp.amountRand }

/-- The observable effects of one successful `create_lead` call. -/
structure LeadGenOutput where
  leadId : Int
  score : Rat
  label : Int
  experiment_bucket : String
  coupon : Option Int
  enqueued : Option ConversionEvent
deriving DecidableEq, Repr

/-- Models one `create_lead(conn, queue, producer)` call at wall-clock time
`now`, with its randomness and database reply taken from `inp` and the
shared queue passed in. Mirrors the Python control flow: a `None` row
from the insert raises; otherwise the id is assigned, the score and
label are computed, the bucket is chosen, a coupon is possibly logged,
the conversion coin(s) are flipped, and on conversion an event is put
on the queue. -/
def create_lead (now : Rat) (inp : LeadGenInput) (queue : List ConversionEvent) :
    Except String (LeadGenOutput × List ConversionEvent) :=
  match inp.insertResult with
  | none => Except.error "Failed to create lead"
  | some i =>
    let coupon : Option Int :=
      if sentCoupon inp.score i then some (pyRandint 500 5000 inp.couponRand)
      else none
    let ev : Option ConversionEvent :=
      if didConvert inp i then some (convEvent now inp i) else none
    Except.ok
      ({ leadId := i, score := inp.score, label := leadLabel inp.score,
         experiment_bucket := experimentBucket i, coupon := coupon,
         enqueued := ev },
       match ev with
       | some e => qput queue e
       | none => queue)

/-- The producer loop of `run_simulation`: `while True: create_lead(...)`.
There is no exception handler around the loop body, so an error from
`create_lead` propagates and the loop terminates; the successful
iterations already performed are returned together with the error. -/
def runSim (now : Rat) (inputs : List LeadGenInput)
    (queue : List ConversionEvent) :
    List LeadGenOutput × List ConversionEvent × Option String :=
  match inputs with
  | [] => ([], queue, none)
  | inp :: rest =>
    match create_lead now inp queue with
    | Except.error msg => ([], queue, some msg)
    | Except.ok (out, queue2) =>
      let r := runSim now rest queue2
      (out :: r.1, r.2.1, r.2.2)

/-- A queue operation: a producer `put` or a consumer `get`. -/
inductive QOp where
  | insert (e : ConversionEvent)
  | take
deriving DecidableEq, Repr

/-- Runs a sequence of queue operations from a starting queue.  Returns
the final queue and, for every successful take, the pair of the event
returned and the queue contents immediately after that call. -/
def runOps : List QOp → List ConversionEvent →
    List ConversionEvent × List (ConversionEvent × List ConversionEvent)
  | [], q => (q, [])
  | QOp.insert e :: ops, q => runOps ops (qput q e)
  | QOp.take :: ops, q =>
    match qget q with
    | none => runOps ops q
    | some (e, rest) =>
      let r := runOps ops rest
      (r.1, (e, rest) :: r.2)

/-- A sample lead with its identifier assigned, for concrete runs. -/
def lead1 : Lead :=
  { email := "a@x.com", utm_medium := "email", utm_source := "klaviyo.com",
    id := some 1 }

/-- A second sample lead with its identifier assigned. -/
def lead2 : Lead :=
  { email := "b@y.com", utm_medium := "social", utm_source := "facebook.com",
    id := some 2 }

/-- A sample event firing at t = 10. -/
def ev1 : ConversionEvent :=
  { converted_at := 10, lead := lead1, conversion_amount := 1500 }

/-- A sample event firing at t = 3. -/
def ev2 : ConversionEvent :=
  { converted_at := 3, lead := lead2, conversion_amount := 2000 }

/-- A sample event distinct from ev1 but with the same fire timestamp. -/
def ev3 : ConversionEvent :=
  { converted_at := 10, lead := lead2, conversion_amount := 2000 }

/-- A producer-iteration input whose database insert returns no row. -/
def badInp : LeadGenInput :=
  { lead0 := { email := "c@z.com", utm_medium := "organic",
               utm_source := "none", id := none },
    insertResult := none, score := 1 / 4, couponRand := 0, flip1 := 0,
    flip2 := 0, delayRand := 0, amountRand := 0 }

/-- A producer-iteration input whose insert succeeds (id 2); its lead is
bucketed to experiment, gets a coupon, and does not convert. -/
def goodInp : LeadGenInput :=
  { lead0 := { email := "d@w.com", utm_medium := "referral",
               utm_source := "reddit.com", id := none },
    insertResult := some 2, score := 0, couponRand := 0, flip1 := 0,
    flip2 := 0, delayRand := 0, amountRand := 0 }

/-- A producer-iteration input whose insert succeeds (id 7) and whose
first coin flip succeeds, so its lead converts. -/
def convInp : LeadGenInput :=
  { lead0 := { email := "e@v.com", utm_medium := "social",
               utm_source := "twitter.com", id := none },
    insertResult := some 7, score := 1 / 2, couponRand := 0,
    flip1 := 1 / 4, flip2 := 0, delayRand := 1 / 2, amountRand := 0 }

/-- The output `create_lead` produces on `goodInp` (no conversion). -/
def goodOut : LeadGenOutput :=
  { leadId := 2, score := 0, label := 0, experiment_bucket := "experiment",
    coupon := some 500, enqueued := none }

/-- The event `create_lead` enqueues on `convInp`. -/
def convEv : ConversionEvent :=
  { converted_at := 15,
    lead := { email := "e@v.com", utm_medium := "social",
              utm_source := "twitter.com", id := some 7 },
    conversion_amount := 1000 }

/-- The output `create_lead` produces on `convInp` (conversion). -/
def convOut : LeadGenOutput :=
  { leadId := 7, score := 1 / 2, label := 0, experiment_bucket := "experiment",
    coupon := some 500, enqueued := some convEv }

theorem qget_eq_none {q : List ConversionEvent} (h : qget q = none) :
    q = [] := by
  cases q with
  | nil => rfl
  | cons a t =>
    simp only [qget] at h
    split at h
    · exact absurd h (by simp)
    · split at h <;> simp_all

theorem conversionEvent_lt_iff (a b : ConversionEvent) :
    ConversionEvent.lt a b = true ↔ a.converted_at < b.converted_at := by
  simp [ConversionEvent.lt]

theorem qget_le {q : List ConversionEvent} {e : ConversionEvent}
    {rest : List ConversionEvent} (h : qget q = some (e, rest)) :
    ∀ x ∈ q, e.converted_at ≤ x.converted_at := by
  induction q generalizing e rest with
  | nil => simp [qget] at h
  | cons a t ih =>
    simp only [qget] at h
    cases hq : qget t with
    | none =>
      rw [hq] at h
      simp only [Option.some.injEq, Prod.mk.injEq] at h
      obtain ⟨he, _⟩ := h
      subst he
      have ht : t = [] := qget_eq_none hq
      subst ht
      intro x hx
      simp only [List.mem_singleton] at hx
      subst hx
      exact le_refl _
    | some p =>
      obtain ⟨m, t2⟩ := p
      simp only [hq] at h
      by_cases hlt : ConversionEvent.lt m a = true
      · rw [if_pos hlt] at h
        simp only [Option.some.injEq, Prod.mk.injEq] at h
        intro x hx
        rw [← h.1]
        rcases List.mem_cons.mp hx with hxa | hxt
        · rw [hxa]
          exact le_of_lt ((conversionEvent_lt_iff m a).mp hlt)
        · exact ih hq x hxt
      · rw [if_neg hlt] at h
        simp only [Option.some.injEq, Prod.mk.injEq] at h
        have ham : a.converted_at ≤ m.converted_at := by
          have hnot := (not_iff_not.mpr (conversionEvent_lt_iff m a)).mp hlt
          exact le_of_not_lt hnot
        intro x hx
        rw [← h.1]
        rcases List.mem_cons.mp hx with hxa | hxt
        · rw [hxa]
        · exact le_trans ham (ih hq x hxt)

theorem qget_rest_mem {q : List ConversionEvent} {e : ConversionEvent}
    {rest : List ConversionEvent} (h : qget q = some (e, rest)) :
    ∀ x ∈ rest, x ∈ q := by
  induction q generalizing e rest with
  | nil => simp [qget] at h
  | cons a t ih =>
    simp only [qget] at h
    cases hq : qget t with
    | none =>
      rw [hq] at h
      simp only [Option.some.injEq, Prod.mk.injEq] at h
      obtain ⟨_, hr⟩ := h
      subst hr
      intro x hx
      simp at hx
    | some p =>
      obtain ⟨m, t2⟩ := p
      simp only [hq] at h
      by_cases hlt : ConversionEvent.lt m a = true
      · rw [if_pos hlt] at h
        simp only [Option.some.injEq, Prod.mk.injEq] at h
        intro x hx
        rw [← h.2] at hx
        rcases List.mem_cons.mp hx with hxa | hxt
        · rw [hxa]
          exact List.mem_cons_self _ _
        · exact List.mem_cons_of_mem _ (ih hq x hxt)
      · rw [if_neg hlt] at h
        simp only [Option.some.injEq, Prod.mk.injEq] at h
        intro x hx
        rw [← h.2] at hx
        exact List.mem_cons_of_mem _ hx

theorem convertIter_eq {q : List ConversionEvent} {e : ConversionEvent}
    {rest : List ConversionEvent} (now : Rat) (hget : qget q = some (e, rest)) :
    convertIter q now =
      if e.converted_at - now > PERIOD then
        some (qput rest e, ConvertAction.requeueAndSleep PERIOD)
      else some (rest, ConvertAction.finalize e.lead.id e.conversion_amount) := by
  unfold convertIter
  rw [hget]

theorem pyRandint_mem (lo hi : Int) (r : Rat) (h0 : 0 ≤ r) (h1 : r < 1)
    (hle : lo ≤ hi) : lo ≤ pyRandint lo hi r ∧ pyRandint lo hi r ≤ hi := by
  unfold pyRandint
  have hcast : (lo : Rat) ≤ (hi : Rat) := by exact_mod_cast hle
  have hn : (0 : Rat) < (hi : Rat) - (lo : Rat) + 1 := by linarith
  have hfl0 : 0 ≤ Int.floor (r * ((hi : Rat) - (lo : Rat) + 1)) :=
    Int.floor_nonneg.mpr (mul_nonneg h0 (le_of_lt hn))
  have hflhi : Int.floor (r * ((hi : Rat) - (lo : Rat) + 1)) < hi - lo + 1 := by
    apply Int.floor_lt.mpr
    have hmul := mul_lt_mul_of_pos_right h1 hn
    rw [one_mul] at hmul
    push_cast
    linarith
  constructor
  · linarith
  · set f := Int.floor (r * ((hi : Rat) - (lo : Rat) + 1)) with hf
    omega

/-- C1: one scheduler-loop iteration computes the slack of the event it
took from the queue; if the slack exceeds `PERIOD = 0.05` it puts the
event back and sleeps for `PERIOD`, and otherwise it finalizes the
conversion with exactly the event's lead identifier and the event's
conversion amount. -/
theorem C1_scheduler_branching (q : List ConversionEvent) (now : Rat)
    (e : ConversionEvent) (rest : List ConversionEvent)
    (hget : qget q = some (e, rest)) :
    (e.converted_at - now > PERIOD →
      convertIter q now =
        some (qput rest e, ConvertAction.requeueAndSleep PERIOD)) ∧
    (e.converted_at - now ≤ PERIOD →
      convertIter q now =
        some (rest, ConvertAction.finalize e.lead.id e.conversion_amount)) := by
  refine ⟨fun hc => ?_, fun hc => ?_⟩
  · rw [convertIter_eq now hget, if_pos hc]
  · rw [convertIter_eq now hget, if_neg (not_lt.mpr hc)]

theorem C1_scheduler_branching_witness :
    convertIter [ev1] 0 = some (qput [] ev1, ConvertAction.requeueAndSleep PERIOD) ∧
    convertIter [ev1] 10 =
      some ([], ConvertAction.finalize ev1.lead.id ev1.conversion_amount) :=
  ⟨(C1_scheduler_branching [ev1] 0 ev1 [] rfl).1 (by norm_num [ev1, PERIOD]),
   (C1_scheduler_branching [ev1] 10 ev1 [] rfl).2 (by norm_num [ev1, PERIOD])⟩

/-- C2: whenever a scheduler-loop iteration finalizes an event, the fire
timestamp of the event taken in that iteration is at most `PERIOD` above
the wall-clock time observed at the readiness check. -/
theorem C2_no_early_fire (q : List ConversionEvent) (now : Rat)
    (q2 : List ConversionEvent) (lid : Option Int) (amt : Int)
    (hfin : convertIter q now = some (q2, ConvertAction.finalize lid amt)) :
    ∃ e rest, qget q = some (e, rest) ∧ e.lead.id = lid ∧
      e.conversion_amount = amt ∧ e.converted_at ≤ now + PERIOD := by
  cases hq : qget q with
  | none =>
    unfold convertIter at hfin
    rw [hq] at hfin
    exact absurd hfin (by simp)
  | some p =>
    obtain ⟨e, rest⟩ := p
    rw [convertIter_eq now hq] at hfin
    by_cases hc : e.converted_at - now > PERIOD
    · rw [if_pos hc] at hfin
      simp at hfin
    · rw [if_neg hc] at hfin
      simp only [Option.some.injEq, Prod.mk.injEq,
        ConvertAction.finalize.injEq] at hfin
      refine ⟨e, rest, rfl, hfin.2.1, hfin.2.2, ?_⟩
      have hle := not_lt.mp hc
      linarith

theorem C2_no_early_fire_witness :
    ∃ e rest, qget [ev1] = some (e, rest) ∧ e.lead.id = some 1 ∧
      e.conversion_amount = 1500 ∧ e.converted_at ≤ 10 + PERIOD :=
  C2_no_early_fire [ev1] 10 [] (some 1) 1500
    (by rw [@convertIter_eq [ev1] ev1 [] 10 rfl, if_neg (by norm_num [ev1, PERIOD])]
        rfl)

/-- C3: for any sequence of insert and take operations, every take
returns an event whose fire timestamp is ≤ the fire timestamp of every
event still present in the queue immediately after the call. -/
theorem C3_take_earliest_min (ops : List QOp) (q0 : List ConversionEvent)
    (e : ConversionEvent) (qAfter : List ConversionEvent)
    (x : ConversionEvent) (hmem : (e, qAfter) ∈ (runOps ops q0).2)
    (hx : x ∈ qAfter) : e.converted_at ≤ x.converted_at := by
  induction ops generalizing q0 with
  | nil => simp [runOps] at hmem
  | cons op ops ih =>
    cases op with
    | insert a =>
      exact ih (qput q0 a) (by simpa [runOps] using hmem)
    | take =>
      simp only [runOps] at hmem
      cases hq : qget q0 with
      | none =>
        rw [hq] at hmem
        exact ih q0 hmem
      | some p =>
        obtain ⟨e2, rest⟩ := p
        simp only [hq, List.mem_cons, Prod.mk.injEq] at hmem
        rcases hmem with ⟨rfl, rfl⟩ | hmem2
        · exact qget_le hq x (qget_rest_mem hq x hx)
        · exact ih rest hmem2

theorem C3_take_earliest_min_witness :
    ev2.converted_at ≤ ev1.converted_at :=
  C3_take_earliest_min [QOp.insert ev1, QOp.insert ev2, QOp.take] [] ev2 [ev1]
    ev1 (by decide) (by decide)

/-- C5: requeue of a not-yet-due event reinserts the very event that was
taken (same timestamp, lead snapshot and amount, appearing at the tail of
the queue list), and the events with strictly smaller fire timestamps are
left in their relative order. -/
theorem C5_requeue_preserves (q : List ConversionEvent) (now : Rat)
    (e : ConversionEvent) (rest : List ConversionEvent)
    (hget : qget q = some (e, rest))
    (hnotdue : e.converted_at - now > PERIOD) :
    convertIter q now = some (rest ++ [e], ConvertAction.requeueAndSleep PERIOD) ∧
    (rest ++ [e]).getLast? = some e ∧
    List.filter (fun x => decide (x.converted_at < e.converted_at)) (rest ++ [e]) =
      List.filter (fun x => decide (x.converted_at < e.converted_at)) rest := by
  refine ⟨?_, ?_, ?_⟩
  · rw [convertIter_eq now hget, if_pos hnotdue]
    rfl
  · exact List.getLast?_concat rest
  · rw [List.filter_append]
    simp

theorem C5_requeue_preserves_witness :
    convertIter [ev1] 0 = some ([] ++ [ev1], ConvertAction.requeueAndSleep PERIOD) ∧
    ([] ++ [ev1]).getLast? = some ev1 ∧
    List.filter (fun x => decide (x.converted_at < ev1.converted_at)) ([] ++ [ev1]) =
      List.filter (fun x => decide (x.converted_at < ev1.converted_at)) [] :=
  C5_requeue_preserves [ev1] 0 ev1 [] rfl (by norm_num [ev1, PERIOD])

/-- C6: the experiment bucket is the deterministic function
`id mod 10 ≤ 1 → control, otherwise experiment` of the lead identifier;
over identifiers 0..19 exactly {0, 1, 10, 11} land in control and the
sixteen others in experiment. -/
theorem C6_experiment_buckets :
    (∀ i : Int, experimentBucket i =
      if i % 10 ≤ 1 then "control" else "experiment") ∧
    (List.range 20).filter
        (fun n => decide (experimentBucket (n : Int) = "control")) =
      [0, 1, 10, 11] ∧
    (List.range 20).filter
        (fun n => decide (experimentBucket (n : Int) = "experiment")) =
      [2, 3, 4, 5, 6, 7, 8, 9, 12, 13, 14, 15, 16, 17, 18, 19] :=
  ⟨fun _ => rfl, by decide, by decide⟩

/-- C9: the event ordering relation compares only fire timestamps, and
events with equal timestamps are mutually not-less-than. -/
theorem C9_order_only_timestamp (e1 e2 : ConversionEvent) :
    (ConversionEvent.lt e1 e2 = true ↔ e1.converted_at < e2.converted_at) ∧
    (e1.converted_at = e2.converted_at →
      ConversionEvent.lt e1 e2 = false ∧ ConversionEvent.lt e2 e1 = false) := by
  refine ⟨conversionEvent_lt_iff e1 e2, fun heq => ?_⟩
  constructor <;> simp [ConversionEvent.lt, heq]

theorem C9_order_only_timestamp_witness :
    (ConversionEvent.lt ev1 ev3 = true ↔ ev1.converted_at < ev3.converted_at) ∧
    (ConversionEvent.lt ev1 ev3 = false ∧ ConversionEvent.lt ev3 ev1 = false) :=
  ⟨(C9_order_only_timestamp ev1 ev3).1,
   (C9_order_only_timestamp ev1 ev3).2 (by decide)⟩

theorem experimentBucket_cases (i : Int) :
    experimentBucket i = "control" ∨ experimentBucket i = "experiment" := by
  unfold experimentBucket
  split <;> simp

theorem experimentBucket_ne_control_iff (i : Int) :
    experimentBucket i ≠ "control" ↔ experimentBucket i = "experiment" := by
  rcases experimentBucket_cases i with h | h <;> rw [h] <;> simp

theorem ite_some_none_isSome {α : Type} (c : Prop) [Decidable c] (x : α) :
    (if c then some x else none).isSome = true ↔ c := by
  by_cases h : c <;> simp [h]

theorem did_convert_iff (sc d0 d2 : Prop) [Decidable sc] [Decidable d0] :
    (if sc ∧ ¬ d0 then d2 else d0) ↔ (d0 ∨ (sc ∧ ¬ d0 ∧ d2)) := by
  by_cases hsc : sc <;> by_cases h0 : d0 <;> simp [hsc, h0]

theorem label_eq_zero_iff (s : Rat) :
    ((if s > (1 : Rat) / 2 then (1 : Int) else 0) = 0) ↔ s ≤ 1 / 2 := by
  by_cases h : s > (1 : Rat) / 2
  · rw [if_pos h]
    constructor
    · intro h1
      exact absurd h1 (by decide)
    · intro hle
      exact absurd h (not_lt.mpr hle)
  · rw [if_neg h]
    exact iff_of_true rfl (le_of_not_lt h)


theorem leadLabel_eq_zero_iff (s : Rat) : leadLabel s = 0 ↔ s ≤ 1 / 2 := by
  unfold leadLabel
  exact label_eq_zero_iff s

theorem sentCoupon_iff (s : Rat) (i : Int) :
    sentCoupon s i ↔ (leadLabel s = 0 ∧ experimentBucket i = "experiment") := by
  unfold sentCoupon
  rw [experimentBucket_ne_control_iff]

theorem didConvert_iff (inp : LeadGenInput) (i : Int) :
    didConvert inp i ↔
      (inp.flip1 < inp.score ∨
        (sentCoupon inp.score i ∧ ¬ inp.flip1 < inp.score ∧
          inp.flip2 < inp.score)) := by
  unfold didConvert
  exact did_convert_iff _ _ _

theorem ite_coupon_bound (C : Prop) [Decidable C] (cr : Rat) (h0c : 0 ≤ cr)
    (h1c : cr < 1) (a : Int)
    (ha : (if C then some (pyRandint 500 5000 cr) else none) = some a) :
    500 ≤ a ∧ a ≤ 5000 := by
  by_cases h : C
  · rw [if_pos h] at ha
    obtain rfl := Option.some.inj ha
    exact pyRandint_mem 500 5000 cr h0c h1c (by decide)
  · rw [if_neg h] at ha
    exact absurd ha (by simp)

/-- C7: a coupon is issued iff the label is 0 ("will not convert") and
the experiment bucket is "experiment"; the label is 0 iff the score is
at most the fixed threshold 1/2; and an issued coupon amount lies in the
cents range 500..5000 inclusive. -/
theorem C7_coupon_rule (now : Rat) (inp : LeadGenInput)
    (q : List ConversionEvent) (out : LeadGenOutput)
    (q2 : List ConversionEvent) (hvalid : inp.Valid)
    (hok : create_lead now inp q = Except.ok (out, q2)) :
    (out.coupon.isSome = true ↔
      (out.label = 0 ∧ out.experiment_bucket = "experiment")) ∧
    (out.label = 0 ↔ inp.score ≤ 1 / 2) ∧
    (∀ a, out.coupon = some a → 500 ≤ a ∧ a ≤ 5000) := by
  obtain ⟨h0s, h1s, h0c, h1c, _⟩ := hvalid
  cases hres : inp.insertResult with
  | none => simp [create_lead, hres] at hok
  | some i =>
    unfold create_lead at hok
    simp only [hres, Except.ok.injEq, Prod.mk.injEq] at hok
    obtain ⟨hout, hq2⟩ := hok
    subst hout
    refine ⟨?_, leadLabel_eq_zero_iff inp.score, ?_⟩
    · exact (ite_some_none_isSome (sentCoupon inp.score i)
        (pyRandint 500 5000 inp.couponRand)).trans (sentCoupon_iff inp.score i)
    · exact fun a ha =>
        ite_coupon_bound (sentCoupon inp.score i) inp.couponRand h0c h1c a ha

theorem C7_coupon_rule_witness :
    (goodOut.coupon.isSome = true ↔
      (goodOut.label = 0 ∧ goodOut.experiment_bucket = "experiment")) ∧
    (goodOut.label = 0 ↔ goodInp.score ≤ 1 / 2) ∧
    ((500 : Int) ≤ 500 ∧ (500 : Int) ≤ 5000) := by
  have h := C7_coupon_rule 0 goodInp [] goodOut [] (by decide)
    (by norm_num [create_lead, goodInp, goodOut, leadLabel, sentCoupon,
      didConvert, convEvent, experimentBucket, pyRandint,
      show ("experiment" : String) ≠ "control" from by decide])
  exact ⟨h.1, h.2.1, h.2.2 500 rfl⟩

/-- C8: the lead converts exactly when the first score-weighted flip
succeeds, or a coupon was issued, the first flip failed and the second
score-weighted flip succeeds; on conversion an event with fire timestamp
in [now, now+30), the persisted lead snapshot and an amount in the cents
range 1000..25000 is appended to the queue; otherwise the queue is
unchanged. -/
theorem C8_conversion_decision (now : Rat) (inp : LeadGenInput)
    (q : List ConversionEvent) (out : LeadGenOutput)
    (q2 : List ConversionEvent) (hvalid : inp.Valid)
    (hok : create_lead now inp q = Except.ok (out, q2)) :
    (out.enqueued.isSome = true ↔
      (inp.flip1 < inp.score ∨
        (out.coupon.isSome = true ∧ ¬ inp.flip1 < inp.score ∧
          inp.flip2 < inp.score))) ∧
    (∀ e, out.enqueued = some e →
      q2 = q ++ [e] ∧ now ≤ e.converted_at ∧ e.converted_at < now + 30 ∧
      1000 ≤ e.conversion_amount ∧ e.conversion_amount ≤ 25000 ∧
      e.lead = { inp.lead0 with id := some out.leadId }) ∧
    (out.enqueued = none → q2 = q) := by
  obtain ⟨h0s, h1s, h0c, h1c, h0f1, h1f1, h0f2, h1f2, h0d, h1d, h0a, h1a⟩ :=
    hvalid
  cases hres : inp.insertResult with
  | none => simp [create_lead, hres] at hok
  | some i =>
    unfold create_lead at hok
    simp only [hres, Except.ok.injEq, Prod.mk.injEq] at hok
    obtain ⟨hout, hq2⟩ := hok
    subst hout
    subst hq2
    refine ⟨?_, ?_, ?_⟩
    · show (if didConvert inp i then some (convEvent now inp i)
          else none).isSome = true ↔
        (inp.flip1 < inp.score ∨
          ((if sentCoupon inp.score i
              then some (pyRandint 500 5000 inp.couponRand)
            else none).isSome = true ∧ ¬ inp.flip1 < inp.score ∧
            inp.flip2 < inp.score))
      rw [ite_some_none_isSome, ite_some_none_isSome]
      exact didConvert_iff inp i
    · intro e he
      have he2 : (if didConvert inp i then some (convEvent now inp i)
          else none) = some e := he
      by_cases hdc : didConvert inp i
      · rw [if_pos hdc] at he2
        obtain rfl := Option.some.inj he2
        refine ⟨?_, ?_, ?_, ?_, ?_, ?_⟩
        · show (match (if didConvert inp i then some (convEvent now inp i)
              else none) with
            | some ev => qput q ev
            | none => q) = q ++ [convEvent now inp i]
          rw [if_pos hdc]
          rfl
        · show now ≤ now + inp.delayRand * 30
          nlinarith
        · show now + inp.delayRand * 30 < now + 30
          nlinarith
        · exact (pyRandint_mem 1000 25000 inp.amountRand h0a h1a (by decide)).1
        · exact (pyRandint_mem 1000 25000 inp.amountRand h0a h1a (by decide)).2
        · rfl
      · rw [if_neg hdc] at he2
        exact absurd he2 (by simp)
    · intro hnone
      have hn2 : (if didConvert inp i then some (convEvent now inp i)
          else none) = none := hnone
      by_cases hdc : didConvert inp i
      · rw [if_pos hdc] at hn2
        exact absurd hn2 (by simp)
      · show (match (if didConvert inp i then some (convEvent now inp i)
            else none) with
          | some ev => qput q ev
          | none => q) = q
        rw [if_neg hdc]

theorem C8_conversion_decision_witness :
    (convOut.enqueued.isSome = true ↔
      (convInp.flip1 < convInp.score ∨
        (convOut.coupon.isSome = true ∧ ¬ convInp.flip1 < convInp.score ∧
          convInp.flip2 < convInp.score))) ∧
    ([convEv] = [] ++ [convEv] ∧ (0 : Rat) ≤ convEv.converted_at ∧
      convEv.converted_at < 0 + 30 ∧ 1000 ≤ convEv.conversion_amount ∧
      convEv.conversion_amount ≤ 25000 ∧
      convEv.lead = { convInp.lead0 with id := some convOut.leadId }) := by
  have h := C8_conversion_decision 0 convInp [] convOut [convEv]
    (by norm_num [LeadGenInput.Valid, convInp])
    (by norm_num [create_lead, convInp, convOut, convEv, convEvent, leadLabel,
      sentCoupon, didConvert, experimentBucket, pyRandint, qput,
      show ("experiment" : String) ≠ "control" from by decide])
  exact ⟨h.1, h.2.1 convEv rfl⟩

/-- C10: every event present in the queue after a successful
`create_lead` call was either already there or carries the lead with the
freshly assigned identifier (in particular a set, non-None identifier);
when the insert yields no row, `create_lead` raises before any enqueue. -/
theorem C10_enqueued_lead_has_id (now : Rat) (inp : LeadGenInput)
    (q : List ConversionEvent) :
    (∀ out q2, create_lead now inp q = Except.ok (out, q2) →
      ∀ e ∈ q2, e ∈ q ∨ e.lead.id = some out.leadId) ∧
    (inp.insertResult = none →
      create_lead now inp q = Except.error "Failed to create lead") := by
  constructor
  · intro out q2 hok e he
    cases hres : inp.insertResult with
    | none => simp [create_lead, hres] at hok
    | some i =>
      unfold create_lead at hok
      simp only [hres, Except.ok.injEq, Prod.mk.injEq] at hok
      obtain ⟨hout, hq2⟩ := hok
      subst hout
      subst hq2
      have he2 : e ∈ (match (if didConvert inp i then some (convEvent now inp i)
          else none) with
        | some ev => qput q ev
        | none => q) := he
      by_cases hdc : didConvert inp i
      · rw [if_pos hdc] at he2
        rcases List.mem_append.mp he2 with hmq | hmev
        · exact Or.inl hmq
        · right
          have hee : e = convEvent now inp i := by simpa using hmev
          rw [hee]
          rfl
      · rw [if_neg hdc] at he2
        exact Or.inl he2
  · intro hfail
    simp [create_lead, hfail]

theorem C10_enqueued_lead_has_id_witness :
    (convEv ∈ ([] : List ConversionEvent) ∨
      convEv.lead.id = some convOut.leadId) ∧
    create_lead 0 badInp [] = Except.error "Failed to create lead" :=
  ⟨(C10_enqueued_lead_has_id 0 convInp []).1 convOut [convEv]
      (by norm_num [create_lead, convInp, convOut, convEv, convEvent,
        leadLabel, sentCoupon, didConvert, experimentBucket, pyRandint, qput,
        show ("experiment" : String) ≠ "control" from by decide])
      convEv (by simp),
   (C10_enqueued_lead_has_id 0 badInp []).2 rfl⟩

/-- C4, as stated, is false on the code: when the database insert of a
lead returns no row, `create_lead` raises and `run_simulation` has no
handler, so the producer loop terminates instead of continuing; here the
second iteration would have succeeded yet is never run and no output is
produced. -/
theorem C4_counterexample :
    (runSim 0 [badInp, goodInp] []).1 = [] ∧
    (runSim 0 [badInp, goodInp] []).2.2 = some "Failed to create lead" ∧
    create_lead 0 goodInp [] = Except.ok (goodOut, []) := by
  refine ⟨rfl, rfl, ?_⟩
  norm_num [create_lead, goodInp, goodOut, leadLabel, sentCoupon, didConvert,
    convEvent, experimentBucket, pyRandint,
    show ("experiment" : String) ≠ "control" from by decide]

/-- C4 amended: a failed lead insert aborts that iteration before any
enqueue (the error is raised with the identifier still unset), and the
error propagates out of the producer loop, terminating it: no iteration
output is produced and the queue is unchanged. -/
theorem C4_failure_terminates_loop (now : Rat) (inp : LeadGenInput)
    (rest : List LeadGenInput) (q : List ConversionEvent)
    (hfail : inp.insertResult = none) :
    create_lead now inp q = Except.error "Failed to create lead" ∧
    runSim now (inp :: rest) q = ([], q, some "Failed to create lead") := by
  have h1 : create_lead now inp q = Except.error "Failed to create lead" := by
    simp [create_lead, hfail]
  refine ⟨h1, ?_⟩
  simp [runSim, h1]

theorem C4_failure_terminates_loop_witness :
    create_lead 0 badInp [] = Except.error "Failed to create lead" ∧
    runSim 0 [badInp, goodInp] [] = ([], [], some "Failed to create lead") :=
  C4_failure_terminates_loop 0 badInp [goodInp] [] rfl
